import Mathlib

/-!
Verification of the VDP speech-emotion-analysis service.

The definitions below are a shallow embedding of the JavaScript serverless
code under `api/`: the phrase-level emotion aggregator of
`api/emotion-engine.js` (`calculateOverallEmotion`, `applyContextAdjustments`,
`calculateSentiment`, `calculateAggregateVAD`, `getNeutralResult`), the
request handlers of `api/analyze-text.js` and `api/analyze-audio.js`, and the
token authentication of `api/auth-middleware.js` (including a full SHA-256).
JavaScript numbers are modelled by rationals, JS objects by structures, and
the JS `x || d` default idiom by an explicit zero test.
-/

set_option maxHeartbeats 1000000
set_option maxRecDepth 200000

namespace VDP

/-- The fixed 8-label emotion enumeration, in the insertion order of the
`emotionWeights` object literal of `emotion-engine.js`. -/
inductive Emotion
  | joy
  | trust
  | anticipation
  | surprise
  | anger
  | fear
  | sadness
  | disgust
deriving DecidableEq, Fintype

/-- The enumeration order of the 8 emotion keys (`Object.keys` order of the
object literals in `emotion-engine.js`). -/
def emotionOrder : List Emotion :=
  [.joy, .trust, .anticipation, .surprise, .anger, .fear, .sadness, .disgust]

/-- Position of an emotion in the fixed enumeration order. -/
def emotionIdx : Emotion → ℕ
  | .joy => 0
  | .trust => 1
  | .anticipation => 2
  | .surprise => 3
  | .anger => 4
  | .fear => 5
  | .sadness => 6
  | .disgust => 7

/-- An 8-way emotion score map (the JS objects keyed by the 8 emotion names). -/
def EmotionMap : Type := Emotion → ℚ

/-- Sum of the 8 entries of an emotion map. -/
def sumEmotions (m : EmotionMap) : ℚ := (emotionOrder.map m).sum

/-- Sentiment polarity labels. -/
inductive Polarity
  | positive
  | negative
  | neutral
deriving DecidableEq

/-- The JS `x || d` default for numbers: a falsy (zero) value is replaced by
the default. -/
def jsOr (x d : ℚ) : ℚ := if x = 0 then d else x

/-- One entry of the `wordAnalyses` array built by `analyzeText` in
`emotion-engine.js`.  `emotion = none` models a label (such as the string
`neutral`) matching none of the 8 emotion keys; `emotion_probs = none` models
a word object without the `emotion_probs` field; `dominance = none` models
the absent `dominance` field. -/
structure WordData where
  found : Bool
  confidence : ℚ
  emotion : Option Emotion
  emotion_probs : Option EmotionMap
  valence : ℚ
  arousal : ℚ
  dominance : Option ℚ
  sentiment : Polarity

/-- `getDefaultEmotionProbs` of `emotion-engine.js`: uniform `0.125`, except
that a non-neutral emotion gets `0.8` and the remaining seven get `0.2/7`. -/
def getDefaultEmotionProbs (emotion : Option Emotion) : EmotionMap :=
  match emotion with
  | none => fun _ => 1/8
  | some e => fun x => if x = e then 4/5 else 1/35

/-- The amplification multiplier of `calculateOverallEmotion`:
`3.0` when confidence exceeds `0.5`, `2.5` when it exceeds `0.3`,
`2.0` otherwise. -/
def amplification (w : WordData) : ℚ :=
  if w.confidence > 1/2 then 3 else if w.confidence > 3/10 then 5/2 else 2

/-- The contribution of one confident word to the emotion `e` entry of the
running `emotionWeights` total: the loop body of `calculateOverallEmotion`.
The base score is `emotionProbs[emotion] || 0.125`, amplified exactly when
`e` is the word's own labelled emotion. -/
def wordContribution (w : WordData) (e : Emotion) : ℚ :=
  let probs := w.emotion_probs.getD (getDefaultEmotionProbs w.emotion)
  let base := jsOr (probs e) (1/8)
  if w.emotion = some e then base * amplification w else base

/-- The confident-word filter of `calculateOverallEmotion`:
`found && confidence > 0.25`. -/
def confidentWords (wa : List WordData) : List WordData :=
  wa.filter (fun w => w.found && decide (w.confidence > 1/4))

/-- The summed `emotionWeights` object of `calculateOverallEmotion`. -/
def emotionWeights (ws : List WordData) : EmotionMap :=
  fun e => (ws.map (fun w => wordContribution w e)).sum

/-- The first normalization of `calculateOverallEmotion`: divide by the total
weight, falling back to uniform `0.125` when the total is not positive. -/
def normalizeWeights (weights : EmotionMap) : EmotionMap :=
  let total := sumEmotions weights
  if total > 0 then fun e => weights e / total else fun _ => 1/8

/-- The apostrophe character, used by the context pattern `can't wait`. -/
def apos : Char := Char.ofNat 39

/-- The context pattern `can't wait` of `applyContextAdjustments`. -/
def cantWait : String := "can" ++ String.singleton apos ++ "t wait"

/-- The hardcoded `contextPatterns` table of `applyContextAdjustments`:
for each emotion, a list of keyword groups. -/
def contextPatterns : Emotion → List (List String)
  | .anger => [["hate", "angry", "mad", "furious"], ["damn", "shit", "stupid"]]
  | .joy => [["love", "happy", "excited", "amazing"], ["yes", "awesome", "fantastic"]]
  | .sadness => [["sad", "cry", "tears", "depressed"], ["sorry", "disappointed"]]
  | .fear => [["scared", "afraid", "worried", "anxious"], ["danger", "threat"]]
  | .surprise => [["wow", "omg", "incredible", "shocking"], ["sudden", "unexpected"]]
  | .disgust => [["gross", "disgusting", "nasty", "awful"], ["sick", "yuck"]]
  | .trust => [["trust", "reliable", "honest", "faithful"], ["sure", "certain"]]
  | .anticipation => [["excited", cantWait, "looking forward"], ["hope", "expect"]]

/-- Whether `pat` occurs as a contiguous run inside `l`. -/
def charsInfix (pat : List Char) : List Char → Bool
  | [] => pat.isEmpty
  | c :: t => pat.isPrefixOf (c :: t) || charsInfix pat t

/-- The JS `s.includes(pat)` substring test. -/
def strIncludes (s pat : String) : Bool := charsInfix pat.toList s.toList

/-- The JS `text.toLowerCase()`. -/
def jsToLower (s : String) : String := String.mk (s.toList.map Char.toLower)

/-- The per-emotion boost factor accumulated by `applyContextAdjustments`:
for each keyword group, `matches * 0.15` is added when at least one keyword
of the group occurs in the lowercased text. -/
def boostFactor (textLower : String) (e : Emotion) : ℚ :=
  (contextPatterns e).foldl
    (fun acc patterns =>
      if (patterns.filter (fun p => strIncludes textLower p)).length > 0
      then acc + ((patterns.filter (fun p => strIncludes textLower p)).length : ℚ) * (3/20)
      else acc) 0

/-- The boosted-and-capped map computed by the pattern loop of
`applyContextAdjustments`: a boosted entry is capped at `0.8`, an unboosted
entry is left unchanged. -/
def cappedEmotions (emotions : EmotionMap) (textLower : String) : EmotionMap :=
  fun e =>
    if boostFactor textLower e > 0 then min (emotions e + boostFactor textLower e) (4/5)
    else emotions e

/-- The total number of context keywords (over all groups for `e`) occurring
in the lowercased text. -/
def contextMatchTotal (textLower : String) (e : Emotion) : ℕ :=
  ((contextPatterns e).map (fun g => (g.filter (fun p => strIncludes textLower p)).length)).sum

/-- `applyContextAdjustments` of `emotion-engine.js`: add the pattern boosts
(capping each boosted entry at `0.8`), then renormalize when the total is
positive. -/
def applyContextAdjustments (emotions : EmotionMap) (text : String) : EmotionMap :=
  let adjusted := cappedEmotions emotions (jsToLower text)
  let total := sumEmotions adjusted
  if total > 0 then fun e => adjusted e / total else adjusted

/-- The `Object.keys(adjustedEmotions).reduce` argmax of
`calculateOverallEmotion`: keep the accumulator only when its score is
strictly greater than the next key's. -/
def reduceArgmax (m : EmotionMap) : Emotion :=
  [Emotion.trust, .anticipation, .surprise, .anger, .fear, .sadness, .disgust].foldl
    (fun a b => if m a > m b then a else b) Emotion.joy

/-- Valence/arousal/dominance triple. -/
structure VAD where
  valence : ℚ
  arousal : ℚ
  dominance : ℚ
deriving DecidableEq

/-- Aggregate sentiment. -/
structure SentimentResult where
  polarity : Polarity
  strength : ℚ
deriving DecidableEq

/-- `calculateAggregateVAD` of `emotion-engine.js`: arithmetic mean over the
confident words, with `|| 0.5` defaults per field. -/
def calculateAggregateVAD (ws : List WordData) : VAD :=
  if ws.isEmpty then ⟨1/2, 1/2, 1/2⟩
  else
    let n : ℚ := ws.length
    { valence := (ws.map (fun w => jsOr w.valence (1/2))).sum / n
      arousal := (ws.map (fun w => jsOr w.arousal (1/2))).sum / n
      dominance := (ws.map (fun w => jsOr (w.dominance.getD 0) (1/2))).sum / n }

/-- `calculateSentiment` of `emotion-engine.js`: positive and negative labels
are counted (neutral labels are not); the polarity compares these two counts
and strength is the mean of `confidence || 0.5`. -/
def calculateSentiment (ws : List WordData) : SentimentResult :=
  if ws.isEmpty then ⟨.neutral, 1/2⟩
  else
    let positiveCount := (ws.filter (fun w => decide (w.sentiment = Polarity.positive))).length
    let negativeCount := (ws.filter (fun w => decide (w.sentiment = Polarity.negative))).length
    let strengthSum := (ws.map (fun w => jsOr w.confidence (1/2))).sum
    let polarity :=
      if positiveCount > negativeCount then Polarity.positive
      else if negativeCount > positiveCount then Polarity.negative
      else Polarity.neutral
    ⟨polarity, strengthSum / ws.length⟩

/-- The phrase-analysis result object of `calculateOverallEmotion`.
`overall_emotion = none` models the string `neutral` of the degenerate
result. -/
structure PhraseResult where
  overall_emotion : Option Emotion
  confidence : ℚ
  emotions : EmotionMap
  word_analysis : List WordData
  word_count : ℕ
  analyzed_words : ℕ
  coverage : ℚ
  vad : VAD
  sentiment : SentimentResult
  processing_method : String

/-- `getNeutralResult` of `emotion-engine.js`. -/
def getNeutralResult (wa : List WordData) : PhraseResult :=
  { overall_emotion := none
    confidence := 1/8
    emotions := fun _ => 1/8
    word_analysis := wa
    word_count := wa.length
    analyzed_words := 0
    coverage := 0
    vad := ⟨1/2, 1/2, 1/2⟩
    sentiment := ⟨.neutral, 1/2⟩
    processing_method := "neutral_fallback" }

/-- `calculateOverallEmotion` of `emotion-engine.js`. -/
def calculateOverallEmotion (wa : List WordData) (text : String) : PhraseResult :=
  let cw := confidentWords wa
  if cw.isEmpty then getNeutralResult wa
  else
    let emotions := normalizeWeights (emotionWeights cw)
    let adjusted := applyContextAdjustments emotions text
    let dominant := reduceArgmax adjusted
    { overall_emotion := some dominant
      confidence := adjusted dominant
      emotions := adjusted
      word_analysis := wa
      word_count := wa.length
      analyzed_words := cw.length
      coverage := (cw.length : ℚ) / (wa.length : ℚ)
      vad := calculateAggregateVAD cw
      sentiment := calculateSentiment cw
      processing_method := "javascript_with_real_database" }

/-! ## The `/api/analyze-text` handler (`api/analyze-text.js`) -/

/-- The `text` field of the request body: absent (or otherwise falsy
non-string), present but not a string, or a string. -/
inductive TextBody
  | missing
  | nonString
  | str (s : String)

/-- Whitespace characters removed by the JS `String.prototype.trim`. -/
def jsWhitespaceChar (c : Char) : Bool :=
  c = ' ' || c = Char.ofNat 9 || c = Char.ofNat 10 || c = Char.ofNat 13 ||
  c = Char.ofNat 11 || c = Char.ofNat 12 || c = Char.ofNat 160 || c = Char.ofNat 65279

/-- The JS `String.prototype.trim`: drop whitespace from both ends. -/
def jsTrim (s : String) : String :=
  String.mk (((s.toList.dropWhile jsWhitespaceChar).reverse.dropWhile jsWhitespaceChar).reverse)

/-- The HTTP status returned by the handler of `api/analyze-text.js`:
200 for OPTIONS, 405 for any other non-POST method, 400 for a missing,
non-string, falsy, whitespace-only or over-long (after trimming) `text`
field, and 200 otherwise. -/
def analyzeTextStatus (method : String) (body : TextBody) : ℕ :=
  if method = "OPTIONS" then 200
  else if method ≠ "POST" then 405
  else
    match body with
    | .missing => 400
    | .nonString => 400
    | .str s =>
      if s = "" then 400
      else if jsTrim s = "" then 400
      else if (jsTrim s).length > 10000 then 400
      else 200

/-! ## The `/api/analyze-audio` handler (`api/analyze-audio.js`) -/

/-- An uploaded multipart file: its size in bytes, raw contents, and name. -/
structure AudioFile where
  size : ℕ
  content : List ℕ
  name : String

/-- The outcome of `formidable`'s multipart parse: failure, or a parsed form
with an optional `audio` file. -/
inductive ParseOutcome
  | failed
  | parsed (audio : Option AudioFile)

/-- The possible responses of the `api/analyze-audio.js` handler.  The
handler never invokes `runPythonAnalysis`; its only 200 responses are the
empty CORS reply and the `success:false` redirect-to-text message. -/
inductive AudioResponse
  | corsOk
  | methodNotAllowed
  | parseError
  | noFile
  | tooSmall
  | tooLarge
  | redirectToText (size : ℕ) (name : String)
deriving DecidableEq

/-- HTTP status of each `api/analyze-audio.js` response. -/
def audioStatus : AudioResponse → ℕ
  | .corsOk => 200
  | .methodNotAllowed => 405
  | .parseError => 500
  | .noFile => 400
  | .tooSmall => 400
  | .tooLarge => 400
  | .redirectToText _ _ => 200

/-- The `success` field of each JSON body of `api/analyze-audio.js`
(the bodyless CORS reply has none). -/
def audioSuccess : AudioResponse → Option Bool
  | .corsOk => none
  | .redirectToText _ _ => some false
  | _ => some false

/-- The `suggestion.endpoint` field of each `api/analyze-audio.js` response. -/
def audioSuggestion : AudioResponse → Option String
  | .redirectToText _ _ => some ("/api/analyze-text")
  | _ => none

/-- The handler of `api/analyze-audio.js`: CORS and method checks, multipart
parse, presence and size validation, then the fixed serverless redirect
message in place of any audio processing. -/
def analyzeAudioHandler (method : String) (po : ParseOutcome) : AudioResponse :=
  if method = "OPTIONS" then .corsOk
  else if method ≠ "POST" then .methodNotAllowed
  else
    match po with
    | .failed => .parseError
    | .parsed none => .noFile
    | .parsed (some f) =>
      if f.size < 50 then .tooSmall
      else if f.size > 52428800 then .tooLarge
      else .redirectToText f.size f.name

/-! ## SHA-256 and the auth middleware (`api/auth-middleware.js`) -/

/-- 2^32, the modulus of 32-bit machine words. -/
def M32 : ℕ := 4294967296

/-- Addition modulo 2^32. -/
def add32 (a b : ℕ) : ℕ := (a + b) % M32

/-- Right rotation of a 32-bit word. -/
def rotr (n x : ℕ) : ℕ := x / 2 ^ n + x % 2 ^ n * 2 ^ (32 - n)

/-- Right shift of a 32-bit word. -/
def shr (n x : ℕ) : ℕ := x / 2 ^ n

/-- Bitwise complement of a 32-bit word. -/
def not32 (x : ℕ) : ℕ := Nat.xor x 4294967295

/-- The SHA-256 `Ch` function. -/
def sha2ch (x y z : ℕ) : ℕ := Nat.xor (Nat.land x y) (Nat.land (not32 x) z)

/-- The SHA-256 `Maj` function. -/
def sha2maj (x y z : ℕ) : ℕ :=
  Nat.xor (Nat.xor (Nat.land x y) (Nat.land x z)) (Nat.land y z)

/-- The SHA-256 big sigma-0 function. -/
def bigSigma0 (x : ℕ) : ℕ := Nat.xor (Nat.xor (rotr 2 x) (rotr 13 x)) (rotr 22 x)

/-- The SHA-256 big sigma-1 function. -/
def bigSigma1 (x : ℕ) : ℕ := Nat.xor (Nat.xor (rotr 6 x) (rotr 11 x)) (rotr 25 x)

/-- The SHA-256 small sigma-0 function. -/
def smallSigma0 (x : ℕ) : ℕ := Nat.xor (Nat.xor (rotr 7 x) (rotr 18 x)) (shr 3 x)

/-- The SHA-256 small sigma-1 function. -/
def smallSigma1 (x : ℕ) : ℕ := Nat.xor (Nat.xor (rotr 17 x) (rotr 19 x)) (shr 10 x)

/-- The first 64 primes, from which FIPS 180-4 derives the SHA-256
constants. -/
def first64Primes : List ℕ :=
  [2, 3, 5, 7, 11, 13, 17, 19, 23, 29, 31, 37, 41, 43, 47, 53,
   59, 61, 67, 71, 73, 79, 83, 89, 97, 101, 103, 107, 109, 113, 127, 131,
   137, 139, 149, 151, 157, 163, 167, 173, 179, 181, 191, 193, 197, 199, 211, 223,
   227, 229, 233, 239, 241, 251, 257, 263, 269, 271, 277, 281, 283, 293, 307, 311]

/-- One bit of the integer-cube-root binary search. -/
def icbrtStep (x acc bit : ℕ) : ℕ :=
  if (acc + 2 ^ bit) ^ 3 ≤ x then acc + 2 ^ bit else acc

/-- Integer cube root by binary search over the given bit positions. -/
def icbrtAux : List ℕ → ℕ → ℕ → ℕ
  | [], _, acc => acc
  | b :: bs, x, acc => icbrtAux bs x (icbrtStep x acc b)

/-- Integer cube root of numbers below `2 ^ 120`. -/
def icbrt (x : ℕ) : ℕ := icbrtAux (List.range 40).reverse x 0

/-- The 64 SHA-256 round constants: the first 32 bits of the fractional
parts of the cube roots of the first 64 primes. -/
def sha2K : List ℕ := first64Primes.map (fun p => icbrt (p * 2 ^ 96) % 2 ^ 32)

/-- One bit of the integer-square-root binary search. -/
def isqrtStep (x acc bit : ℕ) : ℕ :=
  if (acc + 2 ^ bit) ^ 2 ≤ x then acc + 2 ^ bit else acc

/-- Integer square root by binary search over the given bit positions. -/
def isqrtAux : List ℕ → ℕ → ℕ → ℕ
  | [], _, acc => acc
  | b :: bs, x, acc => isqrtAux bs x (isqrtStep x acc b)

/-- Integer square root of numbers below `2 ^ 80`. -/
def isqrt (x : ℕ) : ℕ := isqrtAux (List.range 40).reverse x 0

/-- The 8 initial SHA-256 hash words: the first 32 bits of the fractional
parts of the square roots of the first 8 primes. -/
def sha2H0 : List ℕ := (first64Primes.take 8).map (fun p => isqrt (p * 2 ^ 64) % 2 ^ 32)

/-- Big-endian byte expansion of `v` into `n` bytes. -/
def bytesBE (n v : ℕ) : List ℕ :=
  (List.range n).map (fun i => v / 2 ^ (8 * (n - 1 - i)) % 256)

/-- SHA-256 message padding: a `0x80` byte, zeros, then the 64-bit
big-endian bit length, reaching a multiple of 64 bytes. -/
def sha2pad (msg : List ℕ) : List ℕ :=
  let len := msg.length
  msg ++ 128 :: List.replicate ((119 - len % 64) % 64) 0 ++ bytesBE 8 (len * 8)

/-- Split a byte list into 64-byte blocks (the fuel bounds the number of
blocks; `chunk64` supplies enough). -/
def chunk64Go : ℕ → List ℕ → List (List ℕ)
  | 0, _ => []
  | _ + 1, [] => []
  | fuel + 1, c :: t => (c :: t).take 64 :: chunk64Go fuel ((c :: t).drop 64)

/-- Split a byte list into 64-byte blocks. -/
def chunk64 (l : List ℕ) : List (List ℕ) := chunk64Go l.length l

/-- The 16 initial 32-bit message-schedule words of a 64-byte block. -/
def blockWords (block : List ℕ) : List ℕ :=
  (List.range 16).map (fun i =>
    block.getD (4 * i) 0 * 16777216 + block.getD (4 * i + 1) 0 * 65536 +
    block.getD (4 * i + 2) 0 * 256 + block.getD (4 * i + 3) 0)

/-- One message-schedule extension step. -/
def scheduleStep (w : List ℕ) : List ℕ :=
  let l := w.length
  w ++ [(w.getD (l - 16) 0 + smallSigma0 (w.getD (l - 15) 0) +
         w.getD (l - 7) 0 + smallSigma1 (w.getD (l - 2) 0)) % M32]

/-- Iterate the message-schedule extension. -/
def scheduleIter : ℕ → List ℕ → List ℕ
  | 0, w => w
  | n + 1, w => scheduleIter n (scheduleStep w)

/-- The 64-word message schedule of a block. -/
def msgSchedule (block : List ℕ) : List ℕ := scheduleIter 48 (blockWords block)

/-- Working state of the SHA-256 compression loop. -/
structure Sha2State where
  a : ℕ
  b : ℕ
  c : ℕ
  d : ℕ
  e : ℕ
  f : ℕ
  g : ℕ
  h : ℕ

/-- One round of the SHA-256 compression function. -/
def sha2round (st : Sha2State) (kw : ℕ × ℕ) : Sha2State :=
  let t1 := (st.h + bigSigma1 st.e + sha2ch st.e st.f st.g + kw.1 + kw.2) % M32
  let t2 := (bigSigma0 st.a + sha2maj st.a st.b st.c) % M32
  ⟨(t1 + t2) % M32, st.a, st.b, st.c, add32 st.d t1, st.e, st.f, st.g⟩

/-- Compress one 64-byte block into the running 8-word hash. -/
def sha2block (hs : List ℕ) (block : List ℕ) : List ℕ :=
  let ws := msgSchedule block
  let st0 : Sha2State :=
    ⟨hs.getD 0 0, hs.getD 1 0, hs.getD 2 0, hs.getD 3 0,
     hs.getD 4 0, hs.getD 5 0, hs.getD 6 0, hs.getD 7 0⟩
  let st := (sha2K.zip ws).foldl sha2round st0
  [add32 (hs.getD 0 0) st.a, add32 (hs.getD 1 0) st.b, add32 (hs.getD 2 0) st.c,
   add32 (hs.getD 3 0) st.d, add32 (hs.getD 4 0) st.e, add32 (hs.getD 5 0) st.f,
   add32 (hs.getD 6 0) st.g, add32 (hs.getD 7 0) st.h]

/-- SHA-256 of a byte list: the 8 final hash words. -/
def sha256Words (msg : List ℕ) : List ℕ :=
  (chunk64 (sha2pad msg)).foldl sha2block sha2H0

/-- Lowercase hex digit. -/
def hexDigit (n : ℕ) : Char :=
  if n < 10 then Char.ofNat (48 + n) else Char.ofNat (87 + n % 16)

/-- Lowercase 8-digit hex rendering of a 32-bit word. -/
def hex32 (v : ℕ) : List Char :=
  (List.range 8).map (fun i => hexDigit (v / 2 ^ (4 * (7 - i)) % 16))

/-- The lowercase hex digest of SHA-256, as produced by
`crypto.createHash('sha256').update(token).digest('hex')`. -/
def sha256Hex (msg : List ℕ) : String :=
  String.mk ((sha256Words msg).foldr (fun w acc => hex32 w ++ acc) [])

/-- The bytes of an ASCII token string (UTF-8 coincides with the code points
for the ASCII tokens involved). -/
def tokenBytes (s : String) : List ℕ := s.toList.map (fun c => c.toNat)

/-- `hashToken` of `api/auth-middleware.js`. -/
def hashToken (token : String) : String := sha256Hex (tokenBytes token)

/-- `loadAuthorizedTokens` of `api/auth-middleware.js`: hash the values of
`API_TOKEN_1` .. `API_TOKEN_50`; if none is set, fall back to the hash of the
development token `dev-token-123`. -/
def loadAuthorizedTokens (env : ℕ → Option String) : List String :=
  let loaded := ((List.range 50).filterMap (fun i => (env (i + 1)).map hashToken))
  if loaded = [] then [hashToken ("dev-token-123")] else loaded

/-- Outcome of the `authenticate` middleware. -/
inductive AuthOutcome
  | unauthorized
  | rateLimited
  | proceed
deriving DecidableEq

/-- `authenticate` of `api/auth-middleware.js`, with the Bearer-header /
query-parameter token already extracted (`none` when neither was given) and
the current number of recent requests for this token's window. -/
def authenticate (tokens : List String) (token : Option String) (recent : ℕ) : AuthOutcome :=
  match token with
  | none => .unauthorized
  | some t =>
    if hashToken t ∈ tokens then
      if recent ≥ 100 then .rateLimited else .proceed
    else .unauthorized

/-! ## The ranking reconciler -/

/-- The first emotion in enumeration order attaining the maximum of `f`
(the Python `max(d, key=d.get)` over an insertion-ordered dict). -/
def firstArgmax (f : Emotion → ℚ) : Emotion :=
  [Emotion.trust, .anticipation, .surprise, .anger, .fear, .sadness, .disgust].foldl
    (fun a b => if f b > f a then b else a) Emotion.joy

/-- Modelled from the spec: the ranking reconciler of
`batch_word_processor.py`, a repository file not included under `src/`; its
logic is preserved verbatim in `docs/EMOTION_RANKING_FIX.md` and spec section
4.4.  `counts` is the word-count score per emotion and `emotions` the
probability-weighted aggregate.  The word-count winner is kept unless the
word-count maximum is attained by more than one emotion or the probability
winner beats it by more than `0.05`. -/
def reconcile (counts : Emotion → ℚ) (emotions : EmotionMap) : Emotion :=
  if ((emotionOrder.filter (fun e => counts e = counts (firstArgmax counts))).length > 1)
      ∨ emotions (firstArgmax emotions) - emotions (firstArgmax counts) > 1/20
  then firstArgmax emotions
  else firstArgmax counts

/-! ## Concrete inputs used by witnesses and counterexamples -/

/-- The placeholder entry that `analyzeText` pushes for a word that is not in
the database and that DeepSeek did not resolve. -/
def unknownWord : WordData :=
  ⟨false, 1/8, none, none, 1/2, 1/2, none, .neutral⟩

/-- A confident word whose profile puts all probability on `joy` and exactly
zero on every other emotion. -/
def pureJoyWord : WordData :=
  ⟨true, 1, some .joy, some (fun e => if e = .joy then 1 else 0), 9/10, 7/10, none, .positive⟩

/-- Joy-dominant profile: `0.4` joy, `0.1` trust, `1/12` each other
emotion. -/
def mirrorJoyProbs : Emotion → ℚ
  | .joy => 2/5
  | .trust => 1/10
  | _ => 1/12

/-- Trust-dominant mirror image of `mirrorJoyProbs`. -/
def mirrorTrustProbs : Emotion → ℚ
  | .trust => 2/5
  | .joy => 1/10
  | _ => 1/12

/-- A confident joy-dominant word. -/
def mirrorJoy : WordData :=
  ⟨true, 2/5, some .joy, some mirrorJoyProbs, 3/5, 3/5, none, .positive⟩

/-- The trust-dominant mirror image of `mirrorJoy`. -/
def mirrorTrust : WordData :=
  ⟨true, 2/5, some .trust, some mirrorTrustProbs, 3/5, 3/5, none, .positive⟩

/-- The emotion weights summed over the two mirrored words. -/
def mirrorWeights : Emotion → ℚ
  | .joy => 11/10
  | .trust => 11/10
  | _ => 1/6

/-- The normalized emotion map of the two mirrored words. -/
def mirrorNormalized : Emotion → ℚ
  | .joy => 11/32
  | .trust => 11/32
  | _ => 5/96

/-- A confident positively-labelled word. -/
def sentPos : WordData := ⟨true, 2/5, some .joy, none, 1/2, 1/2, none, .positive⟩

/-- A confident negatively-labelled word. -/
def sentNeg : WordData := ⟨true, 2/5, some .sadness, none, 1/2, 1/2, none, .negative⟩

/-- A confident neutrally-labelled word. -/
def sentNeu : WordData := ⟨true, 2/5, some .trust, none, 1/2, 1/2, none, .neutral⟩

/-- Eight confident words: two positive, one negative, five neutral — the
neutral label holds a strict majority. -/
def sentimentSample : List WordData :=
  [sentPos, sentPos, sentNeg, sentNeu, sentNeu, sentNeu, sentNeu, sentNeu]

/-- A 10-byte multipart audio upload. -/
def tinyAudio : AudioFile := ⟨10, [82, 73, 70, 70, 0, 0, 0, 0, 87, 65], "tiny.wav"⟩

/-- A 10001-character text: one letter followed by 10000 spaces.  Its length
exceeds the 10000-character limit but its trimmed length is 1. -/
def paddedText : String := String.mk (Char.ofNat 97 :: List.replicate 10000 ' ')

/-! ## Helper lemmas -/

/-- FIPS 180-4 known-answer test validating the SHA-256 embedding. -/
theorem sha256Hex_abc :
    sha256Hex (tokenBytes ("abc")) =
      "ba7816bf8f01cfea414140de5dae2223b00361a396177a9cb410ff61f20015ad" := by decide

/-- The 8-term expansion of `sumEmotions`. -/
theorem sumEmotions_expand (m : EmotionMap) :
    sumEmotions m = m .joy + m .trust + m .anticipation + m .surprise +
      m .anger + m .fear + m .sadness + m .disgust := by
  simp [sumEmotions, emotionOrder]
  ring

/-- Unfolding of the confident-word filter over a cons cell. -/
theorem confidentWords_cons (w : WordData) (l : List WordData) :
    confidentWords (w :: l) =
      if w.found = true ∧ w.confidence > 1/4 then w :: confidentWords l
      else confidentWords l := by
  simp only [confidentWords, List.filter_cons]
  by_cases h1 : w.found = true <;> by_cases h2 : w.confidence > 1/4 <;>
    simp [h1, h2]

/-- The confident-word filter of the empty list. -/
theorem confidentWords_nil : confidentWords [] = [] := rfl

/-- The contribution of a word with explicit stored probabilities. -/
theorem wordContribution_eq (w : WordData) (p : EmotionMap)
    (hp : w.emotion_probs = some p) (e : Emotion) :
    wordContribution w e =
      if w.emotion = some e then jsOr (p e) (1/8) * amplification w
      else jsOr (p e) (1/8) := by
  unfold wordContribution
  rw [hp]
  rfl

/-- The amplification multiplier is positive. -/
theorem amplification_pos (w : WordData) : 0 < amplification w := by
  unfold amplification
  split_ifs <;> norm_num

/-- Every default probability is positive. -/
theorem getDefaultEmotionProbs_pos (o : Option Emotion) (e : Emotion) :
    0 < getDefaultEmotionProbs o e := by
  cases o <;> simp only [getDefaultEmotionProbs] <;> [norm_num; split_ifs <;> norm_num]

/-- `jsOr` of a nonnegative value and a positive default is positive. -/
theorem jsOr_pos (x d : ℚ) (hx : 0 ≤ x) (hd : 0 < d) : 0 < jsOr x d := by
  unfold jsOr
  split_ifs with h
  · exact hd
  · exact lt_of_le_of_ne hx (Ne.symm h)

/-- Each word whose stored probabilities are nonnegative contributes a
positive amount to every emotion. -/
theorem wordContribution_pos (w : WordData)
    (hpr : ∀ p, w.emotion_probs = some p → ∀ e, 0 ≤ p e) (e : Emotion) :
    0 < wordContribution w e := by
  unfold wordContribution
  have hbase : 0 < jsOr ((w.emotion_probs.getD (getDefaultEmotionProbs w.emotion)) e) (1/8) := by
    cases hop : w.emotion_probs with
    | none =>
      simp only [Option.getD_none]
      exact jsOr_pos _ _ (le_of_lt (getDefaultEmotionProbs_pos _ _)) (by norm_num)
    | some p =>
      simp only [Option.getD_some]
      exact jsOr_pos _ _ (hpr p hop e) (by norm_num)
  split_ifs
  · exact mul_pos hbase (amplification_pos w)
  · exact hbase

/-- The summed emotion weights over a nonempty list of words with
nonnegative stored probabilities are positive. -/
theorem emotionWeights_pos (ws : List WordData) (hne : ws ≠ [])
    (hpr : ∀ w ∈ ws, ∀ p, w.emotion_probs = some p → ∀ e, 0 ≤ p e) (e : Emotion) :
    0 < emotionWeights ws e := by
  unfold emotionWeights
  apply List.sum_pos
  · intro x hx
    obtain ⟨w, hw, rfl⟩ := List.mem_map.mp hx
    exact wordContribution_pos w (hpr w hw) e
  · simpa using hne

/-- A map with positive entries has a positive sum. -/
theorem sumEmotions_pos (m : EmotionMap) (h : ∀ e, 0 < m e) : 0 < sumEmotions m := by
  rw [sumEmotions_expand]
  linarith [h .joy, h .trust, h .anticipation, h .surprise, h .anger, h .fear,
    h .sadness, h .disgust]

/-- The first normalization with a positive total is pointwise division. -/
theorem normalizeWeights_pos (w : EmotionMap) (h : 0 < sumEmotions w) :
    normalizeWeights w = fun e => w e / sumEmotions w := by
  unfold normalizeWeights
  rw [if_pos h]

/-- Pointwise division distributes over `sumEmotions`. -/
theorem sumEmotions_div (m : EmotionMap) (t : ℚ) :
    sumEmotions (fun e => m e / t) = sumEmotions m / t := by
  simp only [sumEmotions_expand]
  ring

/-- After the first normalization with a positive total, the 8 entries sum
to exactly 1. -/
theorem sumEmotions_normalize_one (w : EmotionMap) (h : 0 < sumEmotions w) :
    sumEmotions (normalizeWeights w) = 1 := by
  rw [normalizeWeights_pos w h, sumEmotions_div, div_self (ne_of_gt h)]

/-- The first normalization preserves nonnegativity. -/
theorem normalizeWeights_nonneg (w : EmotionMap) (hw : ∀ e, 0 ≤ w e) (e : Emotion) :
    0 ≤ normalizeWeights w e := by
  unfold normalizeWeights
  split_ifs with h
  · exact div_nonneg (hw e) (le_of_lt h)
  · norm_num

/-- The boost fold adds `0.15` per matched keyword: generic form over any
group list and accumulator. -/
theorem boost_foldl_eq (tl : String) (l : List (List String)) (acc : ℚ) :
    l.foldl
      (fun acc patterns =>
        if (patterns.filter (fun p => strIncludes tl p)).length > 0
        then acc + ((patterns.filter (fun p => strIncludes tl p)).length : ℚ) * (3/20)
        else acc) acc =
      acc + (((l.map (fun g => (g.filter (fun p => strIncludes tl p)).length)).sum : ℕ) : ℚ)
        * (3/20) := by
  induction l generalizing acc with
  | nil => simp
  | cons g t ih =>
    rw [List.foldl_cons]
    by_cases h : (g.filter (fun p => strIncludes tl p)).length > 0
    · rw [if_pos h, ih, List.map_cons, List.sum_cons]
      push_cast
      ring
    · have h0 : (g.filter (fun p => strIncludes tl p)).length = 0 := by omega
      rw [if_neg h, ih, List.map_cons, List.sum_cons, h0]
      push_cast
      ring

/-- The boost factor equals `0.15` times the total number of matched
keywords over all groups. -/
theorem boostFactor_eq (tl : String) (e : Emotion) :
    boostFactor tl e = (contextMatchTotal tl e : ℚ) * (3/20) := by
  unfold boostFactor contextMatchTotal
  rw [boost_foldl_eq]
  ring

/-- The capped map keeps entries nonnegative. -/
theorem cappedEmotions_nonneg (m : EmotionMap) (tl : String)
    (hm : ∀ e, 0 ≤ m e) (e : Emotion) : 0 ≤ cappedEmotions m tl e := by
  unfold cappedEmotions
  split_ifs with h
  · exact le_min (add_nonneg (hm e) (le_of_lt h)) (by norm_num)
  · exact hm e

/-- A nonnegative map summing to 1 has an entry of at least `1/8`. -/
theorem exists_ge_eighth (m : EmotionMap) (hs : sumEmotions m = 1) :
    ∃ e, 1/8 ≤ m e := by
  by_contra h
  push_neg at h
  rw [sumEmotions_expand] at hs
  linarith [h .joy, h .trust, h .anticipation, h .surprise, h .anger, h .fear,
    h .sadness, h .disgust]

/-- The capped map keeps an entry of at least `1/8` at `1/8` or above. -/
theorem cappedEmotions_entry_ge (m : EmotionMap) (tl : String) (e : Emotion)
    (he : 1/8 ≤ m e) : 1/8 ≤ cappedEmotions m tl e := by
  unfold cappedEmotions
  split_ifs with h
  · exact le_min (by linarith) (by norm_num)
  · exact he

/-- The capped map of a nonnegative unit-sum map has positive total. -/
theorem sum_capped_pos (m : EmotionMap) (tl : String)
    (hm : ∀ e, 0 ≤ m e) (hs : sumEmotions m = 1) :
    0 < sumEmotions (cappedEmotions m tl) := by
  obtain ⟨e₀, he₀⟩ := exists_ge_eighth m hs
  have h8 := cappedEmotions_entry_ge m tl e₀ he₀
  have hn := fun e => cappedEmotions_nonneg m tl hm e
  rw [sumEmotions_expand]
  cases e₀ <;>
    linarith [hn .joy, hn .trust, hn .anticipation, hn .surprise, hn .anger, hn .fear,
      hn .sadness, hn .disgust]

/-- The context-boost pass of a nonnegative unit-sum map is the capped map
renormalized by its total. -/
theorem applyContext_eq (m : EmotionMap) (text : String)
    (hm : ∀ e, 0 ≤ m e) (hs : sumEmotions m = 1) :
    applyContextAdjustments m text =
      fun e => cappedEmotions m (jsToLower text) e /
        sumEmotions (cappedEmotions m (jsToLower text)) := by
  unfold applyContextAdjustments
  rw [if_pos (sum_capped_pos m (jsToLower text) hm hs)]

/-- The context-boost renormalization restores a unit sum. -/
theorem sumEmotions_applyContext (m : EmotionMap) (text : String)
    (hm : ∀ e, 0 ≤ m e) (hs : sumEmotions m = 1) :
    sumEmotions (applyContextAdjustments m text) = 1 := by
  rw [applyContext_eq m text hm hs, sumEmotions_div,
    div_self (ne_of_gt (sum_capped_pos m (jsToLower text) hm hs))]

/-- With at least one confident word, the analysis result's `emotions` map is
the context-adjusted normalized weight map, and `overall_emotion` is its
`reduce` argmax. -/
theorem calcOverall_fields (wa : List WordData) (text : String)
    (h : confidentWords wa ≠ []) :
    (calculateOverallEmotion wa text).emotions =
      applyContextAdjustments
        (normalizeWeights (emotionWeights (confidentWords wa))) text ∧
    (calculateOverallEmotion wa text).overall_emotion =
      some (reduceArgmax (applyContextAdjustments
        (normalizeWeights (emotionWeights (confidentWords wa))) text)) := by
  have hem : (confidentWords wa).isEmpty = false := by
    cases hcw : confidentWords wa
    · exact absurd hcw h
    · rfl
  constructor <;> simp [calculateOverallEmotion, hem]

/-- The step of the JS `reduce` keeps the accumulator only while it is
strictly greater, so an accumulator strictly above the rest survives. -/
theorem foldl_pick_stay (m : EmotionMap) (l : List Emotion) (a : Emotion)
    (h : ∀ b ∈ l, m b < m a) :
    l.foldl (fun x y => if m x > m y then x else y) a = a := by
  induction l with
  | nil => rfl
  | cons b t ih =>
    rw [List.foldl_cons, if_pos (h b (List.mem_cons_self b t))]
    exact ih (fun c hc => h c (List.mem_cons_of_mem _ hc))

/-- The JS `reduce` over `l1 ++ e :: l2` returns `e` whenever `e` is maximal
overall and strictly above everything after it. -/
theorem foldl_pick_last (m : EmotionMap) (l1 l2 : List Emotion) (a e : Emotion)
    (hmax : ∀ x, m x ≤ m e) (hl2 : ∀ b ∈ l2, m b < m e) :
    (l1 ++ e :: l2).foldl (fun x y => if m x > m y then x else y) a = e := by
  rw [List.foldl_append, List.foldl_cons,
    if_neg (not_lt.mpr (hmax (l1.foldl (fun x y => if m x > m y then x else y) a)))]
  exact foldl_pick_stay m l2 e hl2

/-- The `reduce` argmax returns the emotion that is maximal and strictly
above every later emotion in enumeration order. -/
theorem reduceArgmax_eq_of_last (m : EmotionMap) (e : Emotion)
    (hmax : ∀ x, m x ≤ m e)
    (hstrict : ∀ x, emotionIdx e < emotionIdx x → m x < m e) :
    reduceArgmax m = e := by
  cases e
  case joy =>
    exact foldl_pick_stay m _ _ (by intro b hb; fin_cases hb <;> exact hstrict _ (by decide))
  case trust =>
    exact foldl_pick_last m [] [.anticipation, .surprise, .anger, .fear, .sadness, .disgust]
      Emotion.joy _ hmax (by intro b hb; fin_cases hb <;> exact hstrict _ (by decide))
  case anticipation =>
    exact foldl_pick_last m [.trust] [.surprise, .anger, .fear, .sadness, .disgust]
      Emotion.joy _ hmax (by intro b hb; fin_cases hb <;> exact hstrict _ (by decide))
  case surprise =>
    exact foldl_pick_last m [.trust, .anticipation] [.anger, .fear, .sadness, .disgust]
      Emotion.joy _ hmax (by intro b hb; fin_cases hb <;> exact hstrict _ (by decide))
  case anger =>
    exact foldl_pick_last m [.trust, .anticipation, .surprise] [.fear, .sadness, .disgust]
      Emotion.joy _ hmax (by intro b hb; fin_cases hb <;> exact hstrict _ (by decide))
  case fear =>
    exact foldl_pick_last m [.trust, .anticipation, .surprise, .anger] [.sadness, .disgust]
      Emotion.joy _ hmax (by intro b hb; fin_cases hb <;> exact hstrict _ (by decide))
  case sadness =>
    exact foldl_pick_last m [.trust, .anticipation, .surprise, .anger, .fear] [.disgust]
      Emotion.joy _ hmax (by intro b hb; fin_cases hb <;> exact hstrict _ (by decide))
  case disgust =>
    exact foldl_pick_last m [.trust, .anticipation, .surprise, .anger, .fear, .sadness] []
      Emotion.joy _ hmax (by intro b hb; fin_cases hb)

/-- Every emotion map has a maximal entry that is last (in enumeration
order) among the entries tied with it. -/
theorem exists_last_argmax (m : EmotionMap) :
    ∃ d, (∀ x, m x ≤ m d) ∧ (∀ x, m x = m d → emotionIdx x ≤ emotionIdx d) := by
  obtain ⟨e₀, -, he₀⟩ := Finset.exists_max_image (Finset.univ : Finset Emotion) m
    ⟨Emotion.joy, Finset.mem_univ _⟩
  obtain ⟨d, hdS, hd⟩ := Finset.exists_max_image
    (Finset.univ.filter (fun x => m x = m e₀)) emotionIdx
    ⟨e₀, by simp⟩
  simp only [Finset.mem_filter, Finset.mem_univ, true_and] at hdS hd
  refine ⟨d, ?_, ?_⟩
  · intro x
    rw [hdS]
    exact he₀ x (Finset.mem_univ x)
  · intro x hx
    exact hd x (hx.trans hdS)

/-! ## Claim C1: unit-sum invariant -/

/-- C1: for every phrase analysis produced from at least one confident word
(with nonnegative stored probabilities), the 8 emotion entries sum to
exactly 1 after the first normalization and after the context-boost
renormalization (hence within 0.01 of 1.0), and the degenerate neutral
result also sums to exactly 1. -/
theorem phrase_emotions_sum_to_one (wa : List WordData) (text : String)
    (hne : confidentWords wa ≠ [])
    (hpr : ∀ w ∈ wa, ∀ p, w.emotion_probs = some p → ∀ e, 0 ≤ p e) :
    sumEmotions (normalizeWeights (emotionWeights (confidentWords wa))) = 1 ∧
    sumEmotions ((calculateOverallEmotion wa text).emotions) = 1 ∧
    sumEmotions ((getNeutralResult wa).emotions) = 1 := by
  have hpr2 : ∀ w ∈ confidentWords wa, ∀ p, w.emotion_probs = some p → ∀ e, 0 ≤ p e :=
    fun w hw => hpr w (List.mem_of_mem_filter hw)
  have hwpos := emotionWeights_pos (confidentWords wa) hne hpr2
  have hsum := sumEmotions_pos _ hwpos
  have h1 := sumEmotions_normalize_one _ hsum
  have hnn := normalizeWeights_nonneg (emotionWeights (confidentWords wa))
    (fun e => le_of_lt (hwpos e))
  refine ⟨h1, ?_, ?_⟩
  · rw [(calcOverall_fields wa text hne).1]
    exact sumEmotions_applyContext _ _ hnn h1
  · rw [sumEmotions_expand]
    norm_num [getNeutralResult]

/-- Witness for C1 at a single confident word and the phrase `zz`. -/
theorem phrase_emotions_sum_to_one_witness :
    sumEmotions (normalizeWeights (emotionWeights (confidentWords [mirrorJoy]))) = 1 ∧
    sumEmotions ((calculateOverallEmotion [mirrorJoy] "zz").emotions) = 1 ∧
    sumEmotions ((getNeutralResult [mirrorJoy]).emotions) = 1 := by
  apply phrase_emotions_sum_to_one
  · rw [confidentWords_cons, if_pos ⟨rfl, by norm_num [mirrorJoy]⟩]
    simp
  · intro w hw p hp e
    simp only [List.mem_singleton] at hw
    subst hw
    simp only [mirrorJoy] at hp
    injection hp with h
    subst h
    cases e <;> norm_num [mirrorJoyProbs]

/-! ## Claim C4: the context-boost pass -/

/-- The uniform map of `0.125` entries. -/
def uniformEighth : EmotionMap := fun _ => 1/8

/-- C4: in the context-boost pass, every matched keyword (over all groups of
an emotion, independently) adds exactly `0.15` to that emotion's score, the
boosted score is capped at `0.8`, an unmatched emotion is left unchanged,
and the 8 entries are renormalized to sum to exactly 1 afterwards. -/
theorem context_boost_spec (m : EmotionMap) (text : String)
    (hm : ∀ e, 0 ≤ m e) (hs : sumEmotions m = 1) :
    (∀ e, 0 < contextMatchTotal (jsToLower text) e →
      cappedEmotions m (jsToLower text) e =
        min (m e + (contextMatchTotal (jsToLower text) e : ℚ) * (3/20)) (4/5)) ∧
    (∀ e, contextMatchTotal (jsToLower text) e = 0 →
      cappedEmotions m (jsToLower text) e = m e) ∧
    (∀ e, applyContextAdjustments m text e =
      cappedEmotions m (jsToLower text) e /
        sumEmotions (cappedEmotions m (jsToLower text))) ∧
    sumEmotions (applyContextAdjustments m text) = 1 := by
  refine ⟨?_, ?_, ?_, sumEmotions_applyContext m text hm hs⟩
  · intro e he
    unfold cappedEmotions
    rw [boostFactor_eq]
    have hc : (0:ℚ) < (contextMatchTotal (jsToLower text) e : ℚ) := by exact_mod_cast he
    rw [if_pos (mul_pos hc (by norm_num))]
  · intro e he
    unfold cappedEmotions
    rw [boostFactor_eq, he]
    norm_num
  · intro e
    rw [applyContext_eq m text hm hs]

/-- Witness for C4: the phrase `hate damn` matches two anger keywords, so
the anger entry of the uniform map is boosted (capped at `0.8`) and the
result renormalizes to a unit sum. -/
theorem context_boost_spec_witness :
    cappedEmotions uniformEighth (jsToLower ("hate damn")) Emotion.anger =
      min (uniformEighth Emotion.anger +
        (contextMatchTotal (jsToLower ("hate damn")) Emotion.anger : ℚ) * (3/20)) (4/5) ∧
    sumEmotions (applyContextAdjustments uniformEighth ("hate damn")) = 1 := by
  have h := context_boost_spec uniformEighth ("hate damn")
    (fun e => by norm_num [uniformEighth])
    (by rw [sumEmotions_expand]; norm_num [uniformEighth])
  exact ⟨h.1 Emotion.anger (by decide), h.2.2.2⟩

/-! ## Claim C2: degenerate neutral result -/

/-- C2: when the confident-word filter leaves nothing, `calculateOverallEmotion`
returns exactly `getNeutralResult` — every emotion `0.125`, vad `0.5/0.5/0.5`,
sentiment neutral with strength `0.5`, `analyzed_words = 0`, `coverage = 0`,
and the `neutral` overall label — rather than an error, and the
`/api/analyze-text` handler still answers a valid POST with HTTP 200. -/
theorem neutral_fallback_result (wa : List WordData) (text s : String)
    (hconf : confidentWords wa = [])
    (hne : jsTrim s ≠ "") (hlen : (jsTrim s).length ≤ 10000) :
    calculateOverallEmotion wa text = getNeutralResult wa ∧
    (calculateOverallEmotion wa text).overall_emotion = none ∧
    (∀ e, (calculateOverallEmotion wa text).emotions e = 1/8) ∧
    (calculateOverallEmotion wa text).vad = ⟨1/2, 1/2, 1/2⟩ ∧
    (calculateOverallEmotion wa text).sentiment = ⟨.neutral, 1/2⟩ ∧
    (calculateOverallEmotion wa text).analyzed_words = 0 ∧
    (calculateOverallEmotion wa text).coverage = 0 ∧
    analyzeTextStatus "POST" (.str s) = 200 := by
  have hmain : calculateOverallEmotion wa text = getNeutralResult wa := by
    simp [calculateOverallEmotion, hconf]
  have hs : s ≠ "" := by
    intro h
    subst h
    exact hne rfl
  have hlen2 : ¬((jsTrim s).length > 10000) := by omega
  have h200 : analyzeTextStatus "POST" (.str s) = 200 := by
    simp [analyzeTextStatus, hs, hne, hlen2]
  exact ⟨hmain, by rw [hmain]; rfl, by rw [hmain]; intro e; rfl, by rw [hmain]; rfl,
    by rw [hmain]; rfl, by rw [hmain]; rfl, by rw [hmain]; rfl, h200⟩

/-- Witness for C2 at a concrete unresolved word and the phrase `qqq`. -/
theorem neutral_fallback_result_witness :
    calculateOverallEmotion [unknownWord] "qqq" = getNeutralResult [unknownWord] ∧
    (calculateOverallEmotion [unknownWord] "qqq").overall_emotion = none ∧
    (∀ e, (calculateOverallEmotion [unknownWord] "qqq").emotions e = 1/8) ∧
    (calculateOverallEmotion [unknownWord] "qqq").vad = ⟨1/2, 1/2, 1/2⟩ ∧
    (calculateOverallEmotion [unknownWord] "qqq").sentiment = ⟨.neutral, 1/2⟩ ∧
    (calculateOverallEmotion [unknownWord] "qqq").analyzed_words = 0 ∧
    (calculateOverallEmotion [unknownWord] "qqq").coverage = 0 ∧
    analyzeTextStatus "POST" (.str "qqq") = 200 :=
  neutral_fallback_result [unknownWord] "qqq" "qqq"
    (by rw [confidentWords_cons]; simp [unknownWord, confidentWords])
    (by decide) (by decide)

/-! ## Claim C3: per-word amplification -/

/-- C3 counterexample: `pureJoyWord` is a confident word whose stored
probability for the non-dominant emotion `trust` is exactly `0`, yet its
contribution to the running total at `trust` is `0.125`, not the raw
probability `0`. -/
theorem amplification_default_counterexample :
    pureJoyWord ∈ confidentWords [pureJoyWord] ∧
    pureJoyWord.emotion ≠ some Emotion.trust ∧
    (pureJoyWord.emotion_probs.getD (getDefaultEmotionProbs pureJoyWord.emotion)) Emotion.trust
      = 0 ∧
    wordContribution pureJoyWord Emotion.trust = 1/8 := by
  have h0 : confidentWords [pureJoyWord] = [pureJoyWord] := by
    rw [confidentWords_cons]
    rw [if_pos ⟨rfl, by norm_num [pureJoyWord]⟩]
    rfl
  refine ⟨?_, by simp [pureJoyWord], by simp [pureJoyWord, getDefaultEmotionProbs],
    by simp [wordContribution, pureJoyWord, jsOr]⟩
  rw [h0]
  exact List.mem_singleton_self _

/-- C3 (amended): each confident word's base score per emotion is its raw
probability with `0.125` substituted for a zero (or missing) entry; the
word's own dominant-emotion base score is multiplied by `3.0` when
confidence exceeds `0.5`, by `2.5` when it exceeds `0.3`, and by `2.0`
otherwise, while every other emotion's base score enters unamplified. -/
theorem confident_word_contribution (wa : List WordData) (w : WordData) (p : EmotionMap)
    (hw : w ∈ confidentWords wa) (hp : w.emotion_probs = some p) :
    (∀ e, w.emotion = some e →
      wordContribution w e = (if p e = 0 then (1/8 : ℚ) else p e) *
        (if w.confidence > 1/2 then 3 else if w.confidence > 3/10 then 5/2 else 2)) ∧
    (∀ e, w.emotion ≠ some e →
      wordContribution w e = (if p e = 0 then (1/8 : ℚ) else p e)) := by
  unfold wordContribution amplification jsOr
  rw [hp]
  constructor <;> intro e he <;> simp [he]

/-- Witness for C3 (amended) at `pureJoyWord`. -/
theorem confident_word_contribution_witness :
    wordContribution pureJoyWord Emotion.joy = 3 ∧
    wordContribution pureJoyWord Emotion.trust = 1/8 := by
  have hmem : pureJoyWord ∈ confidentWords [pureJoyWord] := by
    have h0 : confidentWords [pureJoyWord] = [pureJoyWord] := by
      rw [confidentWords_cons]
      rw [if_pos ⟨rfl, by norm_num [pureJoyWord]⟩]
      rfl
    rw [h0]
    exact List.mem_singleton_self _
  have h := confident_word_contribution [pureJoyWord] pureJoyWord
    (fun e => if e = Emotion.joy then 1 else 0) hmem rfl
  constructor
  · have h1 := h.1 Emotion.joy rfl
    rw [h1]
    norm_num [pureJoyWord]
  · have h2 := h.2 Emotion.trust (by simp [pureJoyWord])
    rw [h2]
    simp

/-! ## Claim C6: the ranking reconciler -/

/-- C6 (spec-modelled): the reconciler selects the probability-based winner
exactly when the word-count maximum is attained by more than one emotion or
the probability gap between the probability winner and the word-count winner
exceeds `0.05`, and the word-count winner in every other case. -/
theorem reconcile_selection (counts : Emotion → ℚ) (emotions : EmotionMap) :
    ((((emotionOrder.filter (fun e => counts e = counts (firstArgmax counts))).length > 1) ∨
        emotions (firstArgmax emotions) - emotions (firstArgmax counts) > 1/20) →
      reconcile counts emotions = firstArgmax emotions) ∧
    (¬(((emotionOrder.filter (fun e => counts e = counts (firstArgmax counts))).length > 1) ∨
        emotions (firstArgmax emotions) - emotions (firstArgmax counts) > 1/20) →
      reconcile counts emotions = firstArgmax counts) := by
  constructor <;> intro h <;> unfold reconcile <;>
    first
    | rw [if_pos h]
    | rw [if_neg h]

/-- Witness for C6: with all word counts tied, the probability winner
(`anger`) is selected. -/
theorem reconcile_selection_witness :
    reconcile (fun _ => 0) (fun e => if e = Emotion.anger then 1 else 0) = Emotion.anger := by
  have h := (reconcile_selection (fun _ => 0)
    (fun e => if e = Emotion.anger then 1 else 0)).1 (Or.inl (by simp [emotionOrder]))
  rw [h]
  simp [firstArgmax, List.foldl]
  norm_num

/-! ## Claim C8: the audio endpoint -/

/-- C8 counterexample: a POST carrying a 10-byte multipart audio file is
answered with HTTP 400, not with the 200 redirect response. -/
theorem small_file_counterexample :
    audioStatus (analyzeAudioHandler "POST" (.parsed (some tinyAudio))) = 400 ∧
    analyzeAudioHandler "POST" (.parsed (some tinyAudio)) ≠
      .redirectToText tinyAudio.size tinyAudio.name := by decide

/-- C8 (amended): a POST carrying a multipart audio file of size between 50
bytes and 50 MB is always answered with HTTP 200, `success:false` and a
redirect instruction to `/api/analyze-text`; the response never depends on
the audio contents (no audio processing is performed). -/
theorem audio_redirect_spec (method : String) (f : AudioFile)
    (hm : method = "POST") (hmin : 50 ≤ f.size) (hmax : f.size ≤ 52428800) :
    analyzeAudioHandler method (.parsed (some f)) = .redirectToText f.size f.name ∧
    audioStatus (analyzeAudioHandler method (.parsed (some f))) = 200 ∧
    audioSuccess (analyzeAudioHandler method (.parsed (some f))) = some false ∧
    audioSuggestion (analyzeAudioHandler method (.parsed (some f))) =
      some ("/api/analyze-text") ∧
    (∀ c₁ c₂ : List ℕ,
      analyzeAudioHandler method (.parsed (some ⟨f.size, c₁, f.name⟩)) =
        analyzeAudioHandler method (.parsed (some ⟨f.size, c₂, f.name⟩))) := by
  subst hm
  have h1 : ¬(f.size < 50) := by omega
  have h2 : ¬(f.size > 52428800) := by omega
  have hred : analyzeAudioHandler "POST" (.parsed (some f)) = .redirectToText f.size f.name := by
    simp [analyzeAudioHandler, h1, h2]
  exact ⟨hred, by rw [hred]; rfl, by rw [hred]; rfl, by rw [hred]; rfl,
    fun c₁ c₂ => by simp [analyzeAudioHandler, h1, h2]⟩

/-- Witness for C8 (amended) at a 1024-byte upload. -/
theorem audio_redirect_spec_witness :
    analyzeAudioHandler "POST" (.parsed (some ⟨1024, [0, 1, 2], "clip.wav"⟩)) =
      .redirectToText 1024 "clip.wav" ∧
    audioStatus (analyzeAudioHandler "POST" (.parsed (some ⟨1024, [0, 1, 2], "clip.wav"⟩))) = 200 ∧
    audioSuggestion (analyzeAudioHandler "POST" (.parsed (some ⟨1024, [0, 1, 2], "clip.wav"⟩))) =
      some ("/api/analyze-text") := by
  have h := audio_redirect_spec "POST" ⟨1024, [0, 1, 2], "clip.wav"⟩ rfl (by norm_num) (by norm_num)
  exact ⟨h.1, h.2.1, h.2.2.2.1⟩

/-! ## Claim C10: the default development token -/

/-- C10: with no `API_TOKEN_1` .. `API_TOKEN_50` configured, the authorized
set is exactly the SHA-256 hash of `dev-token-123`: that token authenticates
(under the rate limit), a token is accepted precisely when its SHA-256 hash
equals that of `dev-token-123` (so any token with a different hash is
rejected with 401), and a missing token is rejected with 401. -/
theorem default_token_auth (t : String) (recent : ℕ) (hrl : recent < 100) :
    loadAuthorizedTokens (fun _ => none) = [hashToken ("dev-token-123")] ∧
    authenticate (loadAuthorizedTokens (fun _ => none)) (some ("dev-token-123")) recent
      = .proceed ∧
    (authenticate (loadAuthorizedTokens (fun _ => none)) (some t) recent = .proceed ↔
      hashToken t = hashToken ("dev-token-123")) ∧
    (hashToken t ≠ hashToken ("dev-token-123") →
      authenticate (loadAuthorizedTokens (fun _ => none)) (some t) recent = .unauthorized) ∧
    authenticate (loadAuthorizedTokens (fun _ => none)) none recent = .unauthorized := by
  have htoks : loadAuthorizedTokens (fun _ => none) = [hashToken ("dev-token-123")] := rfl
  have hnr : ¬(recent ≥ 100) := by omega
  refine ⟨htoks, ?_, ?_, ?_, ?_⟩
  · simp [authenticate, htoks, hnr]
  · by_cases h : hashToken t = hashToken ("dev-token-123")
    · simp [authenticate, htoks, hnr, h]
    · simp [authenticate, htoks, h]
  · intro h
    simp [authenticate, htoks, h]
  · simp [authenticate]

/-! ## Claim C5: aggregate sentiment -/

/-- C5 counterexample: among eight confident words, five are labelled
neutral (a strict majority), two positive and one negative, yet
`calculateSentiment` returns `positive` — the neutral labels cast no vote. -/
theorem sentiment_majority_counterexample :
    (∀ w ∈ sentimentSample, w.found = true ∧ w.confidence > 1/4) ∧
    (sentimentSample.filter (fun w => decide (w.sentiment = Polarity.neutral))).length = 5 ∧
    (sentimentSample.filter (fun w => decide (w.sentiment = Polarity.positive))).length = 2 ∧
    (sentimentSample.filter (fun w => decide (w.sentiment = Polarity.negative))).length = 1 ∧
    (calculateSentiment sentimentSample).polarity = Polarity.positive := by
  refine ⟨?_, by decide, by decide, by decide, by decide⟩
  intro w hw
  simp only [sentimentSample, List.mem_cons, List.not_mem_nil, or_false] at hw
  rcases hw with rfl | rfl | rfl | rfl | rfl | rfl | rfl | rfl <;>
    exact ⟨rfl, by norm_num [sentPos, sentNeg, sentNeu]⟩

/-- C5 (amended): the aggregate polarity is `positive` when strictly more
confident words are labelled positive than negative, `negative` when
strictly more are labelled negative than positive, and `neutral` otherwise —
neutral labels cast no vote; the strength is the arithmetic mean of the
confident words' confidence values. -/
theorem sentiment_polarity_spec (ws : List WordData) (hne : ws ≠ [])
    (hconf : ∀ w ∈ ws, w.found = true ∧ w.confidence > 1/4) :
    (calculateSentiment ws).polarity =
      (if (ws.filter (fun w => decide (w.sentiment = Polarity.positive))).length >
          (ws.filter (fun w => decide (w.sentiment = Polarity.negative))).length
       then Polarity.positive
       else if (ws.filter (fun w => decide (w.sentiment = Polarity.negative))).length >
          (ws.filter (fun w => decide (w.sentiment = Polarity.positive))).length
       then Polarity.negative
       else Polarity.neutral) ∧
    (calculateSentiment ws).strength = (ws.map (fun w => w.confidence)).sum / ws.length := by
  have hem : ws.isEmpty = false := by
    cases ws
    · exact absurd rfl hne
    · rfl
  have hmap : ws.map (fun w => jsOr w.confidence (1/2)) = ws.map (fun w => w.confidence) := by
    apply List.map_congr_left
    intro w hw
    have h2 := (hconf w hw).2
    have hz : w.confidence ≠ 0 := ne_of_gt (lt_trans (by norm_num) h2)
    simp [jsOr, hz]
  constructor
  · simp [calculateSentiment, hem]
  · simp only [calculateSentiment, hem, Bool.false_eq_true, if_false]
    rw [hmap]

/-- Witness for C5 (amended) at a single positive confident word. -/
theorem sentiment_polarity_spec_witness :
    (calculateSentiment [sentPos]).polarity = Polarity.positive ∧
    (calculateSentiment [sentPos]).strength = 2/5 := by
  have h := sentiment_polarity_spec [sentPos] (by simp)
    (by
      intro w hw
      simp only [List.mem_singleton] at hw
      subst hw
      exact ⟨rfl, by norm_num [sentPos]⟩)
  refine ⟨?_, ?_⟩
  · rw [h.1]
    decide
  · rw [h.2]
    norm_num [sentPos]

/-! ## Claim C7: the text endpoint statuses -/

/-- Dropping leading blanks before a non-blank tail. -/
theorem dropWhile_ws_replicate (n : ℕ) (l : List Char) :
    List.dropWhile jsWhitespaceChar (List.replicate n ' ' ++ l) =
      List.dropWhile jsWhitespaceChar l := by
  induction n with
  | zero => simp
  | succ k ih =>
    rw [List.replicate_succ, List.cons_append, List.dropWhile_cons, if_pos (by decide)]
    exact ih

/-- Trimming `paddedText` leaves the single letter. -/
theorem jsTrim_paddedText : jsTrim paddedText = String.mk [Char.ofNat 97] := by
  unfold jsTrim paddedText
  have h1 : (String.mk (Char.ofNat 97 :: List.replicate 10000 ' ')).toList =
      Char.ofNat 97 :: List.replicate 10000 ' ' := rfl
  rw [h1, List.dropWhile_cons, if_neg (by decide), List.reverse_cons, List.reverse_replicate,
    dropWhile_ws_replicate]
  rfl

/-- The handler of `api/analyze-text.js` on a POST with a string body. -/
theorem analyzeTextStatus_post_str (s : String) :
    analyzeTextStatus "POST" (.str s) =
      if s = "" then 400
      else if jsTrim s = "" then 400
      else if (jsTrim s).length > 10000 then 400
      else 200 := by
  unfold analyzeTextStatus
  rw [if_neg (by decide), if_neg (by decide)]

/-- C7 counterexample: `paddedText` is longer than 10000 characters, yet the
handler returns HTTP 200 because only the trimmed length is checked. -/
theorem untrimmed_length_counterexample :
    paddedText.length > 10000 ∧
    analyzeTextStatus "POST" (.str paddedText) = 200 := by
  constructor
  · show (Char.ofNat 97 :: List.replicate 10000 ' ').length > 10000
    rw [List.length_cons, List.length_replicate]
    omega
  · rw [analyzeTextStatus_post_str]
    rw [if_neg (by decide), if_neg (by rw [jsTrim_paddedText]; decide),
      if_neg (by rw [jsTrim_paddedText]; decide)]

/-- C7 (amended): the handler returns 405 for every non-POST non-OPTIONS
method; 400 for a missing or non-string `text` field, for a text that is
empty or whitespace-only after trimming, and for a text whose trimmed length
exceeds 10000 characters; and 200 for every other POST. -/
theorem analyze_text_status_spec (method : String) (body : TextBody) :
    (method ≠ "OPTIONS" → method ≠ "POST" → analyzeTextStatus method body = 405) ∧
    (method = "POST" → body = .missing → analyzeTextStatus method body = 400) ∧
    (method = "POST" → body = .nonString → analyzeTextStatus method body = 400) ∧
    (∀ s, method = "POST" → body = .str s → jsTrim s = "" →
      analyzeTextStatus method body = 400) ∧
    (∀ s, method = "POST" → body = .str s → (jsTrim s).length > 10000 →
      analyzeTextStatus method body = 400) ∧
    (∀ s, method = "POST" → body = .str s → jsTrim s ≠ "" → (jsTrim s).length ≤ 10000 →
      analyzeTextStatus method body = 200) := by
  refine ⟨?_, ?_, ?_, ?_, ?_, ?_⟩
  · intro h1 h2
    unfold analyzeTextStatus
    rw [if_neg h1, if_pos h2]
  · intro hm hb
    subst hm
    subst hb
    unfold analyzeTextStatus
    rw [if_neg (by decide), if_neg (by decide)]
  · intro hm hb
    subst hm
    subst hb
    unfold analyzeTextStatus
    rw [if_neg (by decide), if_neg (by decide)]
  · intro s hm hb ht
    subst hm
    subst hb
    rw [analyzeTextStatus_post_str]
    by_cases hs : s = ""
    · rw [if_pos hs]
    · rw [if_neg hs, if_pos ht]
  · intro s hm hb hl
    subst hm
    subst hb
    rw [analyzeTextStatus_post_str]
    by_cases hs : s = ""
    · rw [if_pos hs]
    · rw [if_neg hs]
      by_cases ht : jsTrim s = ""
      · rw [if_pos ht]
      · rw [if_neg ht, if_pos hl]
  · intro s hm hb hne hl
    subst hm
    subst hb
    rw [analyzeTextStatus_post_str]
    have hs : s ≠ "" := by
      intro h
      rw [h] at hne
      exact hne rfl
    rw [if_neg hs, if_neg hne, if_neg (by omega)]

/-- Witness for C7 (amended): `hello` gets 200, a GET gets 405, blanks get
400. -/
theorem analyze_text_status_spec_witness :
    analyzeTextStatus "POST" (.str "hello") = 200 ∧
    analyzeTextStatus "GET" (.str "hello") = 405 ∧
    analyzeTextStatus "POST" (.str "   ") = 400 :=
  ⟨(analyze_text_status_spec "POST" (.str "hello")).2.2.2.2.2 "hello" rfl rfl
      (by decide) (by decide),
   (analyze_text_status_spec "GET" (.str "hello")).1 (by decide) (by decide),
   (analyze_text_status_spec "POST" (.str "   ")).2.2.2.1 "   " rfl rfl (by decide)⟩

/-! ## Claim C9: the dominant-emotion tie break -/

/-- C9 counterexample: for the two mirrored words and the neutral text
`zzz`, the final map ties `joy` and `trust` at the maximum, and the analysis
selects `trust` — the later emotion in the fixed enumeration order, not the
first. -/
theorem dominant_tie_counterexample :
    (calculateOverallEmotion [mirrorJoy, mirrorTrust] "zzz").emotions Emotion.joy =
      (calculateOverallEmotion [mirrorJoy, mirrorTrust] "zzz").emotions Emotion.trust ∧
    (∀ e, (calculateOverallEmotion [mirrorJoy, mirrorTrust] "zzz").emotions e ≤
      (calculateOverallEmotion [mirrorJoy, mirrorTrust] "zzz").emotions Emotion.joy) ∧
    (calculateOverallEmotion [mirrorJoy, mirrorTrust] "zzz").overall_emotion =
      some Emotion.trust := by
  have hcw : confidentWords [mirrorJoy, mirrorTrust] = [mirrorJoy, mirrorTrust] := by
    rw [confidentWords_cons, if_pos ⟨rfl, by norm_num [mirrorJoy]⟩,
      confidentWords_cons, if_pos ⟨rfl, by norm_num [mirrorTrust]⟩]
    rfl
  have hne : confidentWords [mirrorJoy, mirrorTrust] ≠ [] := by
    rw [hcw]
    simp
  have hW : ∀ e, emotionWeights [mirrorJoy, mirrorTrust] e = mirrorWeights e := by
    intro e
    have hv : wordContribution mirrorJoy e + (wordContribution mirrorTrust e + 0) =
        mirrorWeights e := by
      rw [wordContribution_eq mirrorJoy mirrorJoyProbs rfl e,
        wordContribution_eq mirrorTrust mirrorTrustProbs rfl e]
      cases e
      case joy =>
        rw [if_pos (by decide), if_neg (by decide)]
        norm_num [mirrorJoyProbs, mirrorTrustProbs, mirrorWeights, jsOr, amplification,
          mirrorJoy, mirrorTrust]
      case trust =>
        rw [if_neg (by decide), if_pos (by decide)]
        norm_num [mirrorJoyProbs, mirrorTrustProbs, mirrorWeights, jsOr, amplification,
          mirrorJoy, mirrorTrust]
      all_goals
        rw [if_neg (by decide), if_neg (by decide)]
        norm_num [mirrorJoyProbs, mirrorTrustProbs, mirrorWeights, jsOr]
    simpa [emotionWeights] using hv
  have hsumW : sumEmotions (emotionWeights [mirrorJoy, mirrorTrust]) = 16/5 := by
    rw [sumEmotions_expand, hW .joy, hW .trust, hW .anticipation, hW .surprise, hW .anger,
      hW .fear, hW .sadness, hW .disgust]
    norm_num [mirrorWeights]
  have hsumWpos : 0 < sumEmotions (emotionWeights [mirrorJoy, mirrorTrust]) := by
    rw [hsumW]
    norm_num
  have hN : ∀ e, normalizeWeights (emotionWeights [mirrorJoy, mirrorTrust]) e =
      mirrorNormalized e := by
    intro e
    rw [normalizeWeights_pos _ hsumWpos]
    show emotionWeights [mirrorJoy, mirrorTrust] e /
      sumEmotions (emotionWeights [mirrorJoy, mirrorTrust]) = _
    rw [hW e, hsumW]
    cases e <;> norm_num [mirrorWeights, mirrorNormalized]
  have hsumN : sumEmotions (normalizeWeights (emotionWeights [mirrorJoy, mirrorTrust])) = 1 :=
    sumEmotions_normalize_one _ hsumWpos
  have hboost : ∀ e, boostFactor (jsToLower ("zzz")) e = 0 := by
    intro e
    cases e <;> decide
  have hcap : cappedEmotions (normalizeWeights (emotionWeights [mirrorJoy, mirrorTrust]))
      (jsToLower ("zzz")) = normalizeWeights (emotionWeights [mirrorJoy, mirrorTrust]) := by
    funext e
    unfold cappedEmotions
    rw [hboost e]
    norm_num
  have hNnonneg : ∀ e, 0 ≤ normalizeWeights (emotionWeights [mirrorJoy, mirrorTrust]) e := by
    intro e
    rw [hN e]
    cases e <;> norm_num [mirrorNormalized]
  have hA : applyContextAdjustments (normalizeWeights (emotionWeights [mirrorJoy, mirrorTrust]))
      ("zzz") = normalizeWeights (emotionWeights [mirrorJoy, mirrorTrust]) := by
    rw [applyContext_eq _ _ hNnonneg hsumN, hcap, hsumN]
    funext e
    simp
  obtain ⟨hE, hO⟩ := calcOverall_fields [mirrorJoy, mirrorTrust] ("zzz") hne
  rw [hcw, hA] at hE hO
  refine ⟨?_, ?_, ?_⟩
  · rw [hE, hN .joy, hN .trust]
    norm_num [mirrorNormalized]
  · intro e
    rw [hE, hN e, hN .joy]
    cases e <;> norm_num [mirrorNormalized]
  · rw [hO]
    congr 1
    apply reduceArgmax_eq_of_last
    · intro x
      rw [hN x, hN .trust]
      cases x <;> norm_num [mirrorNormalized]
    · intro x hx
      rw [hN x, hN .trust]
      cases x
      case joy => exact absurd hx (by decide)
      case trust => exact absurd hx (by decide)
      all_goals norm_num [mirrorNormalized]

/-- C9 (amended): with at least one confident word, the returned
`overall_emotion` is the argmax of the final 8-entry map, and whenever two
or more emotions share the maximal value, the one that comes last in the
fixed enumeration order is selected. -/
theorem dominant_last_argmax (wa : List WordData) (text : String)
    (h : confidentWords wa ≠ []) :
    ∃ d, (calculateOverallEmotion wa text).overall_emotion = some d ∧
      (∀ e, (calculateOverallEmotion wa text).emotions e ≤
        (calculateOverallEmotion wa text).emotions d) ∧
      (∀ e, (calculateOverallEmotion wa text).emotions e =
          (calculateOverallEmotion wa text).emotions d →
        emotionIdx e ≤ emotionIdx d) := by
  obtain ⟨hE, hO⟩ := calcOverall_fields wa text h
  obtain ⟨d, hmax, htie⟩ := exists_last_argmax
    (applyContextAdjustments (normalizeWeights (emotionWeights (confidentWords wa))) text)
  have hstrict : ∀ x, emotionIdx d < emotionIdx x →
      applyContextAdjustments (normalizeWeights (emotionWeights (confidentWords wa))) text x <
        applyContextAdjustments (normalizeWeights (emotionWeights (confidentWords wa))) text d := by
    intro x hx
    rcases lt_or_eq_of_le (hmax x) with hlt | heq
    · exact hlt
    · exact absurd (htie x heq) (by omega)
  refine ⟨d, ?_, ?_, ?_⟩
  · rw [hO, reduceArgmax_eq_of_last _ d hmax hstrict]
  · intro e
    rw [hE]
    exact hmax e
  · intro e
    rw [hE]
    exact htie e

/-- Witness for C9 (amended) at the mirrored two-word phrase. -/
theorem dominant_last_argmax_witness :
    ∃ d, (calculateOverallEmotion [mirrorJoy, mirrorTrust] "zzz").overall_emotion = some d ∧
      (∀ e, (calculateOverallEmotion [mirrorJoy, mirrorTrust] "zzz").emotions e ≤
        (calculateOverallEmotion [mirrorJoy, mirrorTrust] "zzz").emotions d) ∧
      (∀ e, (calculateOverallEmotion [mirrorJoy, mirrorTrust] "zzz").emotions e =
          (calculateOverallEmotion [mirrorJoy, mirrorTrust] "zzz").emotions d →
        emotionIdx e ≤ emotionIdx d) :=
  dominant_last_argmax [mirrorJoy, mirrorTrust] "zzz"
    (by
      rw [confidentWords_cons, if_pos ⟨rfl, by norm_num [mirrorJoy]⟩]
      simp)

/-- Witness for C10: the development token proceeds; `wrong-token`, whose
hash differs, is rejected. -/
theorem default_token_auth_witness :
    authenticate (loadAuthorizedTokens (fun _ => none)) (some ("dev-token-123")) 0
      = .proceed ∧
    authenticate (loadAuthorizedTokens (fun _ => none)) (some ("wrong-token")) 0
      = .unauthorized :=
  ⟨(default_token_auth ("wrong-token") 0 (by norm_num)).2.1,
   (default_token_auth ("wrong-token") 0 (by norm_num)).2.2.2.1 (by decide)⟩

end VDP
